import Mathlib

/-!
Verification of `src/examples/wasm_agent/app/public/streamingWorker.js`.

The worker script is shallowly embedded: every handler becomes a pure Lean
function from the worker's mutable state plus an explicit description of the
outside world (cache contents, network responses, engine outcomes) to the new
state, the list of messages posted to the host via `self.postMessage`, and a
trace of side effects (network fetches, cache writes, engine invocations).

Abstractions, noted where they occur: wall-clock quantities (the
`tokensSec` / `totalTime` fields of token messages, the `toFixed(1)` megabyte
figure interpolated into progress strings, inter-token delays) are elided,
since they are real-time values; the per-chunk progress message is modelled
structurally as its description, percentage and byte count. Console logging is
invisible to the host and is not modelled.
-/

set_option autoImplicit false

namespace StreamingWorker

/-- Handle for a `PhiModel` instance produced by `new PhiModel(...)` (the WASM
engine construct, opaque to the worker script; identified by an id). -/
structure PhiModel where
  id : Nat
deriving DecidableEq

/-- Handle for a `PhiAgentWrapper` instance produced by
`PhiAgentWrapper.from_phi_model` (opaque to the worker script). -/
structure PhiAgentWrapper where
  id : Nat
deriving DecidableEq

/-- The worker's module-level mutable variables (lines 7-9 of the source):
`wasmInitialized`, `currentModel`, `currentAgent`. -/
structure WorkerState where
  wasmInitialized : Bool
  currentModel : Option PhiModel
  currentAgent : Option PhiAgentWrapper
deriving DecidableEq

/-- Messages the worker posts to the host with `self.postMessage`.
`chunk_progress` models the per-chunk `loading_progress` message of
`downloadFile` (line 81-84), whose text interpolates the rounded percentage
and a megabyte figure; the percentage and raw byte count are kept
structurally, the float formatting is elided. Engine-path `token` messages
also carry `tokensSec` and `totalTime` fields computed from
`performance.now()`; these wall-clock values are elided. -/
inductive OutMsg where
  | loading_progress (message : String)
  | chunk_progress (description : String) (percent : Nat) (loaded : Nat)
  | wasm_init_reply (success : Bool)
  | model_loaded
  | token (token : String)
  | stream_complete
  | error (error : String)
  | cache_status (status : String)
deriving DecidableEq

/-- Side effects of a handler that are not `postMessage` calls: network
fetches, cache mutations, and invocations of the two collaborators
(`loadModel` dispatch, `Agent.get_response_stream`). -/
inductive Effect where
  | netFetch (url : String)
  | cacheDelete (url : String)
  | cachePutAttempt (url : String) (bytes : List Nat) (succeeded : Bool)
  | cacheClear
  | loadModelCall
  | engineStream (prompt : String)
deriving DecidableEq

/-- Result of `caches.match(url)` at the start of `downloadFile`:
no cached response, or a cached response with its `ok` flag and bytes. -/
inductive CacheLookup where
  | miss
  | hit (ok : Bool) (bytes : List Nat)
deriving DecidableEq

/-- Outcome of the `fetch(url, ...)` call in `downloadFile`: either the fetch
promise rejects (connection-level failure), or a response arrives with its
`ok` flag, `status`, `statusText`, optional `content-length` header, and the
sequence of body chunks delivered by `reader.read()`. A `none` header models
an absent `content-length` (then `parseInt` yields `NaN`, which is falsy). -/
inductive NetResult where
  | transportError (msg : String)
  | response (ok : Bool) (status : Nat) (statusText : String)
      (contentLength : Option Nat) (chunks : List (List Nat))
deriving DecidableEq

/-- The environment one `downloadFile` call runs against: the cache lookup
result for its URL, the network outcome, and whether `cache.put` succeeds. -/
structure DlWorld where
  lookup : CacheLookup
  net : NetResult
  putOk : Bool
deriving DecidableEq

deriving instance DecidableEq for Except

/-- What one `downloadFile` call produces: the value the returned promise
settles with (`Except.error` models a thrown/rethrown error), the posted
messages, and the effect trace. -/
structure DlOutcome where
  result : Except String (List Nat)
  msgs : List OutMsg
  effects : List Effect
deriving DecidableEq

/-- `chunks.reduce((acc, chunk) => acc + chunk.length, 0)` (line 89). -/
def totalLength (chunks : List (List Nat)) : Nat :=
  chunks.foldl (fun acc chunk => acc + chunk.length) 0

/-- `Uint8Array.set`: copy `chunk` into `arr` starting at `offset`
(the caller guarantees `offset + chunk.length ≤ arr.length`). -/
def jsSet (arr : List Nat) (chunk : List Nat) (offset : Nat) : List Nat :=
  arr.take offset ++ chunk ++ arr.drop (offset + chunk.length)

/-- The copy loop of lines 93-96: successive `result.set(chunk, offset)`
calls, with `offset` advanced by each chunk's length. -/
def concatLoop (chunks : List (List Nat)) (arr : List Nat) (offset : Nat) : List Nat :=
  match chunks with
  | [] => arr
  | chunk :: rest => concatLoop rest (jsSet arr chunk offset) (offset + chunk.length)

/-- Lines 88-96 of `downloadFile`: allocate `new Uint8Array(totalLength)`
(zero-filled) and copy every chunk in at its running offset. -/
def concatChunks (chunks : List (List Nat)) : List Nat :=
  concatLoop chunks (List.replicate (totalLength chunks) 0) 0

/-- Truthiness of the parsed `content-length` (line 79: `if (total && ...)`)
— an absent header parses to `NaN` (falsy) and a zero header is falsy. -/
def totalTruthy : Option Nat → Bool
  | none => false
  | some t => t != 0

/-- `Math.round((loaded / total) * 100)` (line 80) for nonnegative operands:
round-half-up, i.e. `⌊(100·loaded)/total + 1/2⌋ = (200·loaded + total) / (2·total)`
in integer division. -/
def progressPercent (loaded total : Nat) : Nat :=
  (200 * loaded + total) / (2 * total)

/-- The per-chunk progress messages of the read loop (lines 71-86): after each
chunk, `loaded` grows by the chunk's length, and when the parsed total is
truthy and `loaded > 0` a progress message with the rounded percentage is
posted. -/
def chunkProgressMsgs (description : String) (contentLength : Option Nat)
    (loaded0 : Nat) : List (List Nat) → List OutMsg
  | [] => []
  | chunk :: rest =>
    let loaded := loaded0 + chunk.length
    (if totalTruthy contentLength && decide (0 < loaded) then
      [OutMsg.chunk_progress description
        (progressPercent loaded (contentLength.getD 0)) loaded]
    else []) ++ chunkProgressMsgs description contentLength loaded rest

/-- The network portion of `downloadFile` (lines 49-116): post the
"Downloading ..." message, fetch, fail on transport error or on a non-ok
status with the `HTTP <status>: <statusText> for <url>` error (lines 60-62),
otherwise read chunks with progress messages, concatenate them, attempt the
cache write (failure only logged, lines 101-114), and return the bytes. -/
def downloadNetwork (url description : String) (w : DlWorld) : DlOutcome :=
  let startMsg := OutMsg.loading_progress ("Downloading " ++ description ++ "...")
  match w.net with
  | NetResult.transportError msg =>
    { result := Except.error msg
      msgs := [startMsg]
      effects := [Effect.netFetch url] }
  | NetResult.response ok status statusText contentLength chunks =>
    if ok then
      let bytes := concatChunks chunks
      { result := Except.ok bytes
        msgs := startMsg :: chunkProgressMsgs description contentLength 0 chunks
        effects := [Effect.netFetch url, Effect.cachePutAttempt url bytes w.putOk] }
    else
      { result := Except.error
          ("HTTP " ++ toString status ++ ": " ++ statusText ++ " for " ++ url)
        msgs := [startMsg]
        effects := [Effect.netFetch url] }

/-- `downloadFile(url, description)` (lines 26-122): on a cached response,
post the "Loading ... from cache..." message; if the cached response is ok
return its bytes, otherwise delete the stale entry and fall through to the
network path; on a cache miss go straight to the network path. -/
def downloadFile (url description : String) (w : DlWorld) : DlOutcome :=
  match w.lookup with
  | CacheLookup.hit true bytes =>
    { result := Except.ok bytes
      msgs := [OutMsg.loading_progress ("Loading " ++ description ++ " from cache...")]
      effects := [] }
  | CacheLookup.hit false _ =>
    let d := downloadNetwork url description w
    { result := d.result
      msgs := OutMsg.loading_progress ("Loading " ++ description ++ " from cache...")
          :: d.msgs
      effects := Effect.cacheDelete url :: d.effects }
  | CacheLookup.miss => downloadNetwork url description w

/-- The `image` field of a `stream_tokens` payload: absent/null, or an image
object; `dataTruthy` records whether its `data` field is truthy (line 185
tests `image && image.data`). -/
structure ImageObj where
  dataTruthy : Bool
deriving DecidableEq

/-- The payload destructured on line 181: `const {prompt, image} = data`. -/
structure StreamRequest where
  prompt : String
  image : Option ImageObj
deriving DecidableEq

/-- Outcome of `currentAgent.get_response_stream(prompt, tokenCallback)`
(line 218): the tokens it delivers through the callback before the returned
promise resolves (`ok`) or rejects/throws (`err`, with the error message). -/
inductive StreamOutcome where
  | ok (tokens : List String)
  | err (tokens : List String) (msg : String)
deriving DecidableEq

/-- `String.prototype.split` with a one-character separator, on the char
list: split at every separator occurrence, keeping empty pieces (JS returns
`[""]` for the empty string). -/
def splitChars (sep : Char) : List Char → List (List Char)
  | [] => [[]]
  | c :: rest =>
    if c = sep then [] :: splitChars sep rest
    else
      match splitChars sep rest with
      | [] => [[c]]
      | piece :: pieces => (c :: piece) :: pieces

/-- `s.split(sep)` for a one-character separator `sep`. -/
def jsSplit (sep : Char) (s : String) : List String :=
  (splitChars sep s.toList).map (fun cs => { data := cs })

/-- The fixed apology sentence of line 186. -/
def apologyResponse : String :=
  "I\x27m a text generation model and can\x27t analyze images. Please ask me text-based questions!"

/-- Truthiness of `image && image.data` (line 185). -/
def imageFallback : Option ImageObj → Bool
  | some img => img.dataTruthy
  | none => false

/-- Messages and effects produced by one `generateResponse` call. -/
structure GenOutcome where
  msgs : List OutMsg
  effects : List Effect
deriving DecidableEq

/-- `generateResponse(data)` (lines 174-236). With no agent loaded, post a
single error. With an image whose `data` is truthy, post one token per word
of the apology sentence — each token is the word with `' '` appended
(line 189: `token: word + ' '`) — then `stream_complete`; the engine is not
invoked. Otherwise invoke `get_response_stream`; every callback invocation
posts a token message; whether the call resolves or rejects/throws (the
rejection is caught on lines 221-226 and only logged), `stream_complete` is
posted afterwards (line 229). -/
def generateResponse (currentAgent : Option PhiAgentWrapper)
    (data : StreamRequest) (engine : StreamOutcome) : GenOutcome :=
  match currentAgent with
  | none => { msgs := [OutMsg.error "No agent loaded"], effects := [] }
  | some _ =>
    if imageFallback data.image then
      { msgs := (jsSplit ' ' apologyResponse).map (fun word => OutMsg.token (word ++ " "))
          ++ [OutMsg.stream_complete]
        effects := [] }
    else
      let tokens := match engine with
        | StreamOutcome.ok ts => ts
        | StreamOutcome.err ts _ => ts
      { msgs := tokens.map OutMsg.token ++ [OutMsg.stream_complete]
        effects := [Effect.engineStream data.prompt] }

/-- The `load_model` payload (lines 131-133, 148): `base_url`, `model`,
`tokenizer`, `config`, and the optional `quantized` flag
(line 148: `modelConfig.quantized || false`). -/
structure ModelConfig where
  base_url : String
  model : String
  tokenizer : String
  config : String
  quantized : Option Bool
deriving DecidableEq

/-- The environment a whole handler runs against: whether the WASM `init()`
call succeeds, the per-URL download environments, the outcomes of
`new PhiModel(...)` and `PhiAgentWrapper.from_phi_model(...)`, the engine
streaming outcome, and the cache contents/health seen by the cache-management
handlers. -/
structure World where
  initOk : Bool
  dl : String → DlWorld
  construct : List Nat → List Nat → List Nat → Bool → Except String PhiModel
  wrapAgent : PhiModel → Except String PhiAgentWrapper
  engine : StreamOutcome
  cacheKeys : List (String × Nat)
  cacheOpOk : Bool

/-- What one dispatched handler produces: the successor worker state, the
posted messages, the effect trace, and the handler's boolean return value
(meaningful for `loadModel`, which returns true/false). -/
structure StepOutcome where
  state : WorkerState
  msgs : List OutMsg
  effects : List Effect
  success : Bool

/-- First error among the three download results — `Promise.all` rejects with
the failing download's error (completion order idealized to list order). -/
def firstError : List (Except String (List Nat)) → String
  | [] => ""
  | Except.error e :: _ => e
  | Except.ok _ :: rest => firstError rest

/-- `loadModel(modelConfig)` (lines 125-171). Derive the three URLs by
concatenation, download them concurrently (messages/effects idealized to
weights-tokenizer-config order), and on any failure post the error and leave
the state unchanged. Otherwise construct the model — on line 149
`currentModel` is assigned as soon as `new PhiModel(...)` returns — then
`await PhiAgentWrapper.from_phi_model(currentModel)`; if that rejects, the
outer catch posts the error while `currentModel` keeps the new handle and
`currentAgent` is untouched; on success `currentAgent` is assigned and
`model_loaded` is posted. `error.toString()` is modelled as the carried
message. -/
def loadModel (s : WorkerState) (cfg : ModelConfig) (w : World) : StepOutcome :=
  let weightsUrl := cfg.base_url ++ cfg.model
  let tokenizerUrl := cfg.base_url ++ cfg.tokenizer
  let configUrl := cfg.base_url ++ cfg.config
  let d1 := downloadFile weightsUrl "Phi model weights" (w.dl weightsUrl)
  let d2 := downloadFile tokenizerUrl "Phi tokenizer" (w.dl tokenizerUrl)
  let d3 := downloadFile configUrl "Phi config" (w.dl configUrl)
  let startMsg := OutMsg.loading_progress "Starting Phi model load..."
  let dlMsgs := d1.msgs ++ d2.msgs ++ d3.msgs
  let dlEffects := d1.effects ++ d2.effects ++ d3.effects
  match d1.result, d2.result, d3.result with
  | Except.ok weightsBuf, Except.ok tokenizerBuf, Except.ok configBuf =>
    (match w.construct weightsBuf tokenizerBuf configBuf (cfg.quantized.getD false) with
    | Except.error e =>
      { state := s
        msgs := startMsg :: dlMsgs
            ++ [OutMsg.loading_progress "Initializing Phi model...", OutMsg.error e]
        effects := dlEffects
        success := false }
    | Except.ok m =>
      match w.wrapAgent m with
      | Except.error e =>
        { state := { s with currentModel := some m }
          msgs := startMsg :: dlMsgs
              ++ [OutMsg.loading_progress "Initializing Phi model...",
                  OutMsg.loading_progress "Creating agent wrapper...",
                  OutMsg.error e]
          effects := dlEffects
          success := false }
      | Except.ok a =>
        { state := { s with currentModel := some m, currentAgent := some a }
          msgs := startMsg :: dlMsgs
              ++ [OutMsg.loading_progress "Initializing Phi model...",
                  OutMsg.loading_progress "Creating agent wrapper...",
                  OutMsg.model_loaded]
          effects := dlEffects
          success := true })
  | r1, r2, r3 =>
    { state := s
      msgs := startMsg :: dlMsgs ++ [OutMsg.error (firstError [r1, r2, r3])]
      effects := dlEffects
      success := false }

/-- `request.url.split('/').pop()` (line 252). -/
def lastPathSegment (url : String) : String :=
  (jsSplit '/' url).getLastD ""

/-- `(size / 1024 / 1024).toFixed(1)` idealized to exact decimal rounding:
the number of tenths of a megabyte, rounded to nearest. -/
def mbTenths (size : Nat) : Nat :=
  (10 * size + 524288) / 1048576

/-- Render `mbTenths` as the `toFixed(1)` string. -/
def mbString (size : Nat) : String :=
  toString (mbTenths size / 10) ++ "." ++ toString (mbTenths size % 10)

/-- `checkCacheStatus()` (lines 239-260): report an empty cache, or list each
cached entry as `<last URL segment>: <MB> MB`; any failure reports
"Cache check failed". -/
def checkCacheStatus (w : World) : List OutMsg :=
  if w.cacheOpOk then
    if w.cacheKeys.isEmpty then
      [OutMsg.cache_status "Cache is empty"]
    else
      [OutMsg.cache_status ("Cached files: " ++ String.intercalate ", "
        (w.cacheKeys.map (fun p => lastPathSegment p.1 ++ ": " ++ mbString p.2 ++ " MB")))]
  else
    [OutMsg.cache_status "Cache check failed"]

/-- `clearCache()` (lines 262-274). -/
def clearCache (w : World) : List OutMsg × List Effect :=
  if w.cacheOpOk then
    ([OutMsg.cache_status "Cache cleared"], [Effect.cacheClear])
  else
    ([OutMsg.cache_status "Failed to clear cache"], [])

/-- Inbound messages, the tagged union switched on by `self.onmessage`
(lines 277-310); `other` covers every tag outside the five known ones. -/
inductive InMsg where
  | init_wasm
  | load_model (config : ModelConfig)
  | stream_tokens (data : StreamRequest)
  | check_cache
  | clear_cache
  | other (tag : String)
deriving DecidableEq

/-- The `self.onmessage` dispatcher (lines 277-310). `init_wasm` runs
`initializeWASM()` — on success the flag is set, on failure (the `init()`
promise rejecting) it is left untouched — and posts the result.
`load_model` first checks `wasmInitialized`, posting a single
"WASM not initialized" error and returning without calling `loadModel` when
the flag is unset. `stream_tokens` runs `generateResponse`. Unknown tags hit
the `default` branch, which only calls `console.warn`. -/
def onmessage (s : WorkerState) (m : InMsg) (w : World) : StepOutcome :=
  match m with
  | InMsg.init_wasm =>
    if w.initOk then
      { state := { s with wasmInitialized := true }
        msgs := [OutMsg.wasm_init_reply true], effects := [], success := true }
    else
      { state := s
        msgs := [OutMsg.wasm_init_reply false], effects := [], success := false }
  | InMsg.load_model cfg =>
    if s.wasmInitialized then
      let r := loadModel s cfg w
      { r with effects := Effect.loadModelCall :: r.effects }
    else
      { state := s
        msgs := [OutMsg.error "WASM not initialized"], effects := [], success := false }
  | InMsg.stream_tokens data =>
    let g := generateResponse s.currentAgent data w.engine
    { state := s, msgs := g.msgs, effects := g.effects, success := true }
  | InMsg.check_cache =>
    { state := s, msgs := checkCacheStatus w, effects := [], success := true }
  | InMsg.clear_cache =>
    { state := s, msgs := (clearCache w).1, effects := (clearCache w).2, success := true }
  | InMsg.other _ =>
    { state := s, msgs := [], effects := [], success := true }

/-- Number of `stream_complete` messages in a posted-message list. -/
def countStreamComplete (ms : List OutMsg) : Nat :=
  ms.countP (fun m => match m with | OutMsg.stream_complete => true | _ => false)

/-- Percentages carried by the `chunk_progress` messages of a message list,
in posting order. -/
def percentsOf (ms : List OutMsg) : List Nat :=
  ms.filterMap (fun m => match m with
    | OutMsg.chunk_progress _ p _ => some p
    | _ => none)

/-- The running `loaded` totals of the read loop: after each chunk, the sum
of the lengths of the chunks received so far (starting from `loaded0`). -/
def loadedTotals (loaded0 : Nat) : List (List Nat) → List Nat
  | [] => []
  | chunk :: rest => (loaded0 + chunk.length) :: loadedTotals (loaded0 + chunk.length) rest

/-- A concrete quiet environment used to instantiate universally quantified
theorems: cache misses, unreachable network, successful collaborators. -/
def trivWorld : World where
  initOk := true
  dl := fun _ =>
    { lookup := CacheLookup.miss, net := NetResult.transportError "offline", putOk := true }
  construct := fun _ _ _ _ => Except.ok ⟨0⟩
  wrapAgent := fun _ => Except.ok ⟨0⟩
  engine := StreamOutcome.ok []
  cacheKeys := []
  cacheOpOk := true

/-- A worker state in which a model/agent pair (id 0) is already loaded. -/
def oldState : WorkerState where
  wasmInitialized := true
  currentModel := some ⟨0⟩
  currentAgent := some ⟨0⟩

/-- A concrete `load_model` payload. -/
def cfg0 : ModelConfig where
  base_url := "https://x/"
  model := "m.bin"
  tokenizer := "t.bin"
  config := "c.json"
  quantized := some false

/-- An environment in which the three asset downloads are cache hits and
`new PhiModel` succeeds (id 1), but `PhiAgentWrapper.from_phi_model`
rejects. -/
def wrapFailWorld : World where
  initOk := true
  dl := fun _ =>
    { lookup := CacheLookup.hit true [1], net := NetResult.transportError "unused", putOk := true }
  construct := fun _ _ _ _ => Except.ok ⟨1⟩
  wrapAgent := fun _ => Except.error "wrap failed"
  engine := StreamOutcome.ok []
  cacheKeys := []
  cacheOpOk := true

/-- An environment in which a `load_model` request fully succeeds: cache-hit
downloads, model id 5, agent id 7. -/
def okWorld : World where
  initOk := true
  dl := fun _ =>
    { lookup := CacheLookup.hit true [1], net := NetResult.transportError "unused", putOk := true }
  construct := fun _ _ _ _ => Except.ok ⟨5⟩
  wrapAgent := fun _ => Except.ok ⟨7⟩
  engine := StreamOutcome.ok []
  cacheKeys := []
  cacheOpOk := true

end StreamingWorker

namespace StreamingWorker

theorem countStreamComplete_map_token (ts : List String) :
    countStreamComplete (ts.map OutMsg.token) = 0 := by
  induction ts with
  | nil => rfl
  | cons t ts ih =>
    rw [List.map_cons, countStreamComplete, List.countP_cons, ← countStreamComplete, ih]
    rfl

theorem countStreamComplete_append (xs ys : List OutMsg) :
    countStreamComplete (xs ++ ys) = countStreamComplete xs + countStreamComplete ys := by
  simp [countStreamComplete, List.countP_append]

/-- C1: on the text-only path with an agent loaded (the image part does not
trigger the fallback), `generateResponse` posts exactly one terminal
`stream_complete`, the last message is that `stream_complete`, and no error
message reaches the host — whether the underlying
`Agent.get_response_stream` call resolves or rejects/throws. -/
theorem generateResponse_stream_complete_once
    (agent : PhiAgentWrapper) (data : StreamRequest) (engine : StreamOutcome)
    (h : imageFallback data.image = false) :
    countStreamComplete (generateResponse (some agent) data engine).msgs = 1
    ∧ (generateResponse (some agent) data engine).msgs.getLast?
        = some OutMsg.stream_complete
    ∧ ∀ e, OutMsg.error e ∉ (generateResponse (some agent) data engine).msgs := by
  have htoks : ∀ ts : List String,
      countStreamComplete (ts.map OutMsg.token ++ [OutMsg.stream_complete]) = 1
      ∧ (ts.map OutMsg.token ++ [OutMsg.stream_complete]).getLast?
          = some OutMsg.stream_complete
      ∧ ∀ e, OutMsg.error e ∉ ts.map OutMsg.token ++ [OutMsg.stream_complete] := by
    intro ts
    refine ⟨?_, ?_, ?_⟩
    · rw [countStreamComplete_append, countStreamComplete_map_token]
      rfl
    · simp
    · intro e
      simp [List.mem_append, List.mem_map]
  cases engine with
  | ok ts => simpa [generateResponse, h] using htoks ts
  | err ts msg => simpa [generateResponse, h] using htoks ts

/-- C1 witness: a concrete failing stream still yields exactly one terminal
`stream_complete` and no host-visible error. -/
theorem generateResponse_stream_complete_once_witness :
    countStreamComplete (generateResponse (some ⟨0⟩)
        { prompt := "hi", image := none } (StreamOutcome.err ["a", "b"] "boom")).msgs = 1
    ∧ (generateResponse (some ⟨0⟩)
        { prompt := "hi", image := none } (StreamOutcome.err ["a", "b"] "boom")).msgs.getLast?
        = some OutMsg.stream_complete
    ∧ ∀ e, OutMsg.error e ∉ (generateResponse (some ⟨0⟩)
        { prompt := "hi", image := none } (StreamOutcome.err ["a", "b"] "boom")).msgs :=
  generateResponse_stream_complete_once ⟨0⟩
    { prompt := "hi", image := none } (StreamOutcome.err ["a", "b"] "boom") rfl

theorem map_token_space_ne_map_token (L : List String) (hL : L ≠ []) :
    L.map (fun word => OutMsg.token (word ++ " ")) ++ [OutMsg.stream_complete]
      ≠ L.map OutMsg.token ++ [OutMsg.stream_complete] := by
  cases L with
  | nil => exact absurd rfl hL
  | cons w ws =>
    intro h
    have hw : w ++ " " = w := by simpa using congrArg List.head? h
    have hlen : w.length + " ".length = w.length := by
      simpa [String.length_append] using congrArg String.length hw
    have hone : " ".length = 1 := rfl
    omega

/-- C2 counterexample: with an image supplied (truthy `data`), the posted
token messages are not the apology sentence split on spaces — each token
carries a trailing space (line 189: `token: word + ' '`), so the first token
is `"I'm "`, not `"I'm"`. -/
theorem generateResponse_image_tokens_not_bare_words :
    ¬ ((generateResponse (some ⟨0⟩)
          { prompt := "hi", image := some { dataTruthy := true } }
          (StreamOutcome.ok [])).msgs
        = (jsSplit ' ' apologyResponse).map OutMsg.token ++ [OutMsg.stream_complete]) := by
  have hne : jsSplit ' ' apologyResponse ≠ [] := by decide
  have := map_token_space_ne_map_token (jsSplit ' ' apologyResponse) hne
  simpa [generateResponse, imageFallback] using this

/-- C2 (amended): with an agent loaded and an image whose `data` field is
truthy, the posted messages are one token per word of the apology sentence in
sentence order — each token being the word followed by a single space —
then exactly one `stream_complete`, and the engine is never invoked
(empty effect trace). -/
theorem generateResponse_image_fallback
    (agent : PhiAgentWrapper) (data : StreamRequest) (engine : StreamOutcome)
    (h : imageFallback data.image = true) :
    generateResponse (some agent) data engine
      = { msgs := (jsSplit ' ' apologyResponse).map
            (fun word => OutMsg.token (word ++ " ")) ++ [OutMsg.stream_complete]
          effects := [] } := by
  simp [generateResponse, h]

/-- C2 witness: the amended claim at a concrete request. -/
theorem generateResponse_image_fallback_witness :
    generateResponse (some ⟨0⟩)
        { prompt := "hi", image := some { dataTruthy := true } } (StreamOutcome.ok ["x"])
      = { msgs := (jsSplit ' ' apologyResponse).map
            (fun word => OutMsg.token (word ++ " ")) ++ [OutMsg.stream_complete]
          effects := [] } :=
  generateResponse_image_fallback ⟨0⟩
    { prompt := "hi", image := some { dataTruthy := true } } (StreamOutcome.ok ["x"]) rfl

/-- C10: with an agent loaded, the request is forwarded to the engine
(exactly one `get_response_stream` invocation with the request's prompt) iff
the payload does not contain an image object with a truthy `data` field;
equivalently, the engine is never invoked iff such an image is present. -/
theorem generateResponse_fallback_iff_truthy_image
    (agent : PhiAgentWrapper) (data : StreamRequest) (engine : StreamOutcome) :
    ((generateResponse (some agent) data engine).effects
        = [Effect.engineStream data.prompt]
      ↔ ¬ (∃ img, data.image = some img ∧ img.dataTruthy = true))
    ∧ ((generateResponse (some agent) data engine).effects = []
      ↔ (∃ img, data.image = some img ∧ img.dataTruthy = true)) := by
  cases himg : data.image with
  | none =>
    cases engine <;> simp [generateResponse, imageFallback, himg]
  | some img =>
    cases hdt : img.dataTruthy with
    | false =>
      cases engine <;> simp [generateResponse, imageFallback, himg, hdt]
    | true =>
      cases engine <;> simp [generateResponse, imageFallback, himg, hdt]

/-- C3: a `load_model` command received while `wasmInitialized` is false is
answered by a single error message; `loadModel` is not invoked, the state is
unchanged, and no network or cache effect occurs (empty effect trace). -/
theorem onmessage_load_model_uninit (s : WorkerState) (cfg : ModelConfig) (w : World)
    (h : s.wasmInitialized = false) :
    onmessage s (InMsg.load_model cfg) w
      = { state := s
          msgs := [OutMsg.error "WASM not initialized"]
          effects := []
          success := false } := by
  simp [onmessage, h]

/-- C3 witness: the guard at a concrete uninitialized state. -/
theorem onmessage_load_model_uninit_witness :
    onmessage { wasmInitialized := false, currentModel := none, currentAgent := none }
        (InMsg.load_model cfg0) trivWorld
      = { state := { wasmInitialized := false, currentModel := none, currentAgent := none }
          msgs := [OutMsg.error "WASM not initialized"]
          effects := []
          success := false } :=
  onmessage_load_model_uninit
    { wasmInitialized := false, currentModel := none, currentAgent := none } cfg0 trivWorld rfl

/-- C9: an inbound message whose tag is none of the five known commands
produces no outbound message and no effect at all (the unknown tag is only
logged with `console.warn`); the state is also unchanged. -/
theorem onmessage_unknown_silent (s : WorkerState) (tag : String) (w : World) :
    onmessage s (InMsg.other tag) w
      = { state := s, msgs := [], effects := [], success := true } :=
  rfl

/-- C5: on a cache miss, a response with a non-success status makes
`downloadFile` fail with the error carrying the status code and the URL; the
only messages and effects are the initial "Downloading" notice and the fetch
itself — in particular no cache write, not even a partial one, occurs. -/
theorem downloadFile_http_error (url description statusText : String) (status : Nat)
    (contentLength : Option Nat) (chunks : List (List Nat)) (putOk : Bool) :
    downloadFile url description
        { lookup := CacheLookup.miss
          net := NetResult.response false status statusText contentLength chunks
          putOk := putOk }
      = { result := Except.error
            ("HTTP " ++ toString status ++ ": " ++ statusText ++ " for " ++ url)
          msgs := [OutMsg.loading_progress ("Downloading " ++ description ++ "...")]
          effects := [Effect.netFetch url] }
    ∧ ∀ u bytes ok, Effect.cachePutAttempt u bytes ok
        ∉ (downloadFile url description
            { lookup := CacheLookup.miss
              net := NetResult.response false status statusText contentLength chunks
              putOk := putOk }).effects := by
  refine ⟨rfl, ?_⟩
  intro u bytes ok
  simp [downloadFile, downloadNetwork]

/-- C5 witness: a concrete 404 on a cache miss. -/
theorem downloadFile_http_error_witness :
    (downloadFile "https://x/m.bin" "Phi model weights"
        { lookup := CacheLookup.miss
          net := NetResult.response false 404 "Not Found" (some 10) []
          putOk := true }).result
      = Except.error "HTTP 404: Not Found for https://x/m.bin" := by
  rw [(downloadFile_http_error "https://x/m.bin" "Phi model weights" "Not Found"
    404 (some 10) [] true).1]
  rfl

/-- C6: when the network download succeeds (on a cache miss or after evicting
a stale cached entry), the call returns the downloaded bytes even when the
cache write fails, and the settled value is identical whether the cache write
succeeds or fails — the caller cannot distinguish the two via the return
value. -/
theorem downloadFile_cache_write_absorbed (url description statusText : String)
    (status : Nat) (contentLength : Option Nat) (chunks : List (List Nat))
    (staleBytes : List Nat) :
    (downloadFile url description
        { lookup := CacheLookup.miss
          net := NetResult.response true status statusText contentLength chunks
          putOk := false }).result
      = Except.ok (concatChunks chunks)
    ∧ (downloadFile url description
        { lookup := CacheLookup.miss
          net := NetResult.response true status statusText contentLength chunks
          putOk := false }).result
      = (downloadFile url description
          { lookup := CacheLookup.miss
            net := NetResult.response true status statusText contentLength chunks
            putOk := true }).result
    ∧ (downloadFile url description
        { lookup := CacheLookup.hit false staleBytes
          net := NetResult.response true status statusText contentLength chunks
          putOk := false }).result
      = Except.ok (concatChunks chunks)
    ∧ (downloadFile url description
        { lookup := CacheLookup.hit false staleBytes
          net := NetResult.response true status statusText contentLength chunks
          putOk := false }).result
      = (downloadFile url description
          { lookup := CacheLookup.hit false staleBytes
            net := NetResult.response true status statusText contentLength chunks
            putOk := true }).result :=
  ⟨rfl, rfl, rfl, rfl⟩

theorem totalLength_eq_sum (chunks : List (List Nat)) :
    totalLength chunks = (chunks.map List.length).sum := by
  suffices h : ∀ acc : Nat,
      chunks.foldl (fun a c => a + c.length) acc = acc + (chunks.map List.length).sum by
    simpa [totalLength] using h 0
  induction chunks with
  | nil => intro acc; simp
  | cons c cs ih => intro acc; simp [ih, Nat.add_assoc]

theorem jsSet_at_end (xs c : List Nat) (n : Nat) :
    jsSet (xs ++ List.replicate (c.length + n) 0) c xs.length
      = (xs ++ c) ++ List.replicate n 0 := by
  unfold jsSet
  have hn : c.length + n - c.length = n := by omega
  rw [List.take_left, List.drop_append, List.drop_replicate, hn]

theorem concatLoop_spec (chunks : List (List Nat)) :
    ∀ xs : List Nat,
      concatLoop chunks (xs ++ List.replicate ((chunks.map List.length).sum) 0) xs.length
        = xs ++ chunks.flatten := by
  induction chunks with
  | nil => intro xs; simp [concatLoop]
  | cons c cs ih =>
    intro xs
    rw [concatLoop]
    have hsum : ((c :: cs).map List.length).sum = c.length + (cs.map List.length).sum := by
      simp
    rw [hsum, jsSet_at_end xs c ((cs.map List.length).sum)]
    have hlen : xs.length + c.length = (xs ++ c).length := by simp
    rw [hlen, ih (xs ++ c), List.append_assoc]
    simp

theorem concatChunks_eq_flatten (chunks : List (List Nat)) :
    concatChunks chunks = chunks.flatten := by
  have h := concatLoop_spec chunks []
  simpa [concatChunks, totalLength_eq_sum] using h

theorem flatten_chunk_slice (chunks : List (List Nat)) :
    ∀ i, (hi : i < chunks.length) →
      (chunks.flatten.drop (((chunks.take i).map List.length).sum)).take chunks[i].length
        = chunks[i] := by
  induction chunks with
  | nil => intro i hi; exact absurd hi (by simp)
  | cons c cs ih =>
    intro i hi
    cases i with
    | zero => simp
    | succ j =>
      have hj : j < cs.length := by simpa using hi
      have hstep : ((c :: cs).flatten.drop ((((c :: cs).take (j + 1)).map List.length).sum))
          = cs.flatten.drop (((cs.take j).map List.length).sum) := by
        simp only [List.take_succ_cons, List.map_cons, List.sum_cons, List.flatten_cons]
        exact List.drop_append (((cs.take j).map List.length).sum)
      rw [List.getElem_cons_succ, hstep]
      exact ih j hj

/-- C4: on a successful network download, the returned buffer is the
in-order concatenation of the received chunks: `downloadFile` settles with
the bytes produced by the copy loop, which equal the flattened chunk list;
the length is the sum of the chunk lengths, and every chunk reappears
contiguously at the offset given by the lengths of the earlier chunks. -/
theorem downloadFile_concat (url description statusText : String) (status : Nat)
    (contentLength : Option Nat) (chunks : List (List Nat)) (putOk : Bool) :
    (downloadFile url description
        { lookup := CacheLookup.miss
          net := NetResult.response true status statusText contentLength chunks
          putOk := putOk }).result = Except.ok (concatChunks chunks)
    ∧ concatChunks chunks = chunks.flatten
    ∧ (concatChunks chunks).length = (chunks.map List.length).sum
    ∧ ∀ i, (hi : i < chunks.length) →
        ((concatChunks chunks).drop (((chunks.take i).map List.length).sum)).take
            chunks[i].length
          = chunks[i] := by
  refine ⟨rfl, concatChunks_eq_flatten chunks, ?_, ?_⟩
  · rw [concatChunks_eq_flatten]
    simp
  · intro i hi
    rw [concatChunks_eq_flatten]
    exact flatten_chunk_slice chunks i hi

/-- C4 witness: a concrete download whose third chunk is empty; the fourth
chunk reappears at offset 3. -/
theorem downloadFile_concat_witness :
    (downloadFile "u" "d"
        { lookup := CacheLookup.miss
          net := NetResult.response true 200 "OK" (some 6) [[1, 2], [3], [], [4, 5, 6]]
          putOk := true }).result = Except.ok (concatChunks [[1, 2], [3], [], [4, 5, 6]])
    ∧ ((concatChunks [[1, 2], [3], [], [4, 5, 6]]).drop
          ((([[1, 2], [3], [], [4, 5, 6]].take 3).map List.length).sum)).take
        ([[1, 2], [3], [], [4, 5, 6]][3].length)
      = [[1, 2], [3], [], [4, 5, 6]][3] :=
  ⟨(downloadFile_concat "u" "d" "OK" 200 (some 6) [[1, 2], [3], [], [4, 5, 6]] true).1,
   (downloadFile_concat "u" "d" "OK" 200 (some 6) [[1, 2], [3], [], [4, 5, 6]] true).2.2.2
     3 (by decide)⟩

theorem percentsOf_append (xs ys : List OutMsg) :
    percentsOf (xs ++ ys) = percentsOf xs ++ percentsOf ys := by
  simp [percentsOf]

theorem progressPercent_mono (t : Nat) {a b : Nat} (h : a ≤ b) :
    progressPercent a t ≤ progressPercent b t :=
  Nat.div_le_div_right (by omega)

theorem progressPercent_self (t : Nat) (ht : 0 < t) : progressPercent t t = 100 := by
  unfold progressPercent
  have h1 : 200 * t + t = 2 * t * 100 + t := by ring
  rw [h1, Nat.mul_add_div (by omega)]
  have h2 : t / (2 * t) = 0 := Nat.div_eq_of_lt (by omega)
  rw [h2]

theorem loadedTotals_le (l0 : Nat) (cs : List (List Nat)) :
    ∀ x ∈ loadedTotals l0 cs, l0 ≤ x := by
  induction cs generalizing l0 with
  | nil => simp [loadedTotals]
  | cons c cs ih =>
    intro x hx
    rw [loadedTotals, List.mem_cons] at hx
    rcases hx with h | h
    · omega
    · have := ih (l0 + c.length) x h
      omega

theorem loadedTotals_pairwise (l0 : Nat) (cs : List (List Nat)) :
    List.Pairwise (· ≤ ·) (loadedTotals l0 cs) := by
  induction cs generalizing l0 with
  | nil => exact List.Pairwise.nil
  | cons c cs ih =>
    rw [loadedTotals]
    refine List.Pairwise.cons ?_ (ih (l0 + c.length))
    intro x hx
    exact loadedTotals_le (l0 + c.length) cs x hx

theorem loadedTotals_getLast (cs : List (List Nat)) :
    ∀ l0, cs ≠ [] →
      (loadedTotals l0 cs).getLast? = some (l0 + (cs.map List.length).sum) := by
  induction cs with
  | nil => intro l0 h; exact absurd rfl h
  | cons c cs ih =>
    intro l0 _
    cases cs with
    | nil => simp [loadedTotals]
    | cons c2 cs2 =>
      have h2 := ih (l0 + c.length) (by simp)
      rw [loadedTotals, loadedTotals, List.getLast?_cons_cons]
      rw [loadedTotals] at h2
      rw [h2]
      simp only [Option.some.injEq, List.map_cons, List.sum_cons]
      omega

theorem filter_getLast_of_pos (p : Nat → Bool) :
    ∀ (l : List Nat) (a : Nat), l.getLast? = some a → p a = true →
      (l.filter p).getLast? = some a := by
  intro l
  induction l with
  | nil => intro a h; simp at h
  | cons x xs ih =>
    intro a hlast hpa
    cases xs with
    | nil =>
      have hxa : x = a := by simpa using hlast
      subst hxa
      simp [List.filter, hpa]
    | cons y ys =>
      rw [List.getLast?_cons_cons] at hlast
      have hf := ih a hlast hpa
      have hfne : (y :: ys).filter p ≠ [] := by
        intro h0
        rw [h0] at hf
        simp at hf
      by_cases hx : p x = true
      · rw [List.filter_cons_of_pos hx]
        cases hE : (y :: ys).filter p with
        | nil => exact absurd hE hfne
        | cons z zs =>
          rw [hE] at hf
          rw [List.getLast?_cons_cons]
          exact hf
      · rw [List.filter_cons_of_neg (by simpa using hx)]
        exact hf

theorem percentsOf_chunkProgressMsgs (description : String) (t : Nat) (ht : t ≠ 0) :
    ∀ (cs : List (List Nat)) (l0 : Nat),
      percentsOf (chunkProgressMsgs description (some t) l0 cs)
        = ((loadedTotals l0 cs).filter (fun l => decide (0 < l))).map
            (fun l => progressPercent l t) := by
  intro cs
  induction cs with
  | nil => intro l0; rfl
  | cons c cs ih =>
    intro l0
    rw [chunkProgressMsgs, loadedTotals, percentsOf_append, ih (l0 + c.length)]
    have htt : totalTruthy (some t) = true := by simp [totalTruthy, ht]
    by_cases h0 : 0 < l0 + c.length
    · simp [htt, h0, percentsOf]
    · simp [htt, h0, percentsOf]

theorem chunkProgressMsgs_percent (description : String) (contentLength : Option Nat) :
    ∀ (cs : List (List Nat)) (l0 : Nat) (d : String) (p l : Nat),
      OutMsg.chunk_progress d p l ∈ chunkProgressMsgs description contentLength l0 cs →
      p = progressPercent l (contentLength.getD 0) := by
  intro cs
  induction cs with
  | nil =>
    intro l0 d p l h
    simp [chunkProgressMsgs] at h
  | cons c cs ih =>
    intro l0 d p l h
    rw [chunkProgressMsgs, List.mem_append] at h
    rcases h with h1 | h2
    · by_cases hb : (totalTruthy contentLength && decide (0 < l0 + c.length)) = true
      · rw [if_pos hb] at h1
        simp only [List.mem_singleton, OutMsg.chunk_progress.injEq] at h1
        obtain ⟨-, hp, hl⟩ := h1
        rw [hp, hl]
      · rw [if_neg hb] at h1
        simp at h1
    · exact ih (l0 + c.length) d p l h2

/-- C7: for a download on the network path with an advertised nonzero total,
every per-chunk progress message carries
`percent = round(bytesReceived / total * 100)`; the successive percentages
are non-decreasing; and when the advertised total equals the bytes actually
received, the final emitted percentage is 100. -/
theorem downloadFile_progress_monotone (url description statusText : String)
    (status t : Nat) (chunks : List (List Nat)) (putOk : Bool) (ht : 0 < t) :
    (∀ d p l, OutMsg.chunk_progress d p l ∈ (downloadFile url description
        { lookup := CacheLookup.miss
          net := NetResult.response true status statusText (some t) chunks
          putOk := putOk }).msgs → p = progressPercent l t)
    ∧ List.Pairwise (· ≤ ·) (percentsOf (downloadFile url description
        { lookup := CacheLookup.miss
          net := NetResult.response true status statusText (some t) chunks
          putOk := putOk }).msgs)
    ∧ ((chunks.map List.length).sum = t →
        (percentsOf (downloadFile url description
          { lookup := CacheLookup.miss
            net := NetResult.response true status statusText (some t) chunks
            putOk := putOk }).msgs).getLast? = some 100) := by
  have hmsgs : (downloadFile url description
      { lookup := CacheLookup.miss
        net := NetResult.response true status statusText (some t) chunks
        putOk := putOk }).msgs
      = OutMsg.loading_progress ("Downloading " ++ description ++ "...")
        :: chunkProgressMsgs description (some t) 0 chunks := rfl
  have hper : percentsOf (downloadFile url description
      { lookup := CacheLookup.miss
        net := NetResult.response true status statusText (some t) chunks
        putOk := putOk }).msgs
      = percentsOf (chunkProgressMsgs description (some t) 0 chunks) := by
    rw [hmsgs, percentsOf]
    simp [List.filterMap_cons]
    rfl
  have hrepr := percentsOf_chunkProgressMsgs description t (by omega) chunks 0
  refine ⟨?_, ?_, ?_⟩
  · intro d p l h
    rw [hmsgs, List.mem_cons] at h
    rcases h with h1 | h2
    · exact absurd h1 (by simp)
    · simpa using chunkProgressMsgs_percent description (some t) chunks 0 d p l h2
  · rw [hper, hrepr]
    exact ((loadedTotals_pairwise 0 chunks).filter _).map _
      (fun a b hab => progressPercent_mono t hab)
  · intro hsum
    have hne : chunks ≠ [] := by
      intro h0
      rw [h0] at hsum
      simp at hsum
      omega
    have hlast : (loadedTotals 0 chunks).getLast? = some t := by
      rw [loadedTotals_getLast chunks 0 hne, hsum]
      simp
    have hfil : ((loadedTotals 0 chunks).filter (fun l => decide (0 < l))).getLast?
        = some t :=
      filter_getLast_of_pos _ _ t hlast (by simpa using ht)
    rw [hper, hrepr, List.getLast?_map, hfil]
    simp [progressPercent_self t ht]

/-- C7 witness: two 5-byte chunks against a total of 10 give percentages
50 then 100. -/
theorem downloadFile_progress_monotone_witness :
    List.Pairwise (· ≤ ·) (percentsOf (downloadFile "u" "d"
        { lookup := CacheLookup.miss
          net := NetResult.response true 200 "OK" (some 10) [[9, 9, 9, 9, 9], [8, 8, 8, 8, 8]]
          putOk := true }).msgs)
    ∧ (percentsOf (downloadFile "u" "d"
        { lookup := CacheLookup.miss
          net := NetResult.response true 200 "OK" (some 10) [[9, 9, 9, 9, 9], [8, 8, 8, 8, 8]]
          putOk := true }).msgs).getLast? = some 100 :=
  ⟨(downloadFile_progress_monotone "u" "d" "OK" 200 10
      [[9, 9, 9, 9, 9], [8, 8, 8, 8, 8]] true (by decide)).2.1,
   (downloadFile_progress_monotone "u" "d" "OK" 200 10
      [[9, 9, 9, 9, 9], [8, 8, 8, 8, 8]] true (by decide)).2.2 (by decide)⟩

/-- C8 counterexample: starting from a state with model/agent pair id 0
loaded, a `loadModel` call whose downloads and model construction succeed
(new model id 1) but whose `PhiAgentWrapper.from_phi_model` rejects leaves
`currentModel` at the new handle while `currentAgent` keeps the old one
(line 149 assigns the model before the line 156 await; the outer catch only
posts an error). A generation session started afterwards observes the
partially replaced pair — it streams with agent 0 while the current model is
1 — refuting atomicity of replacement when a step between the two
assignments fails. -/
theorem loadModel_partial_replacement :
    (loadModel oldState cfg0 wrapFailWorld).state.currentModel = some ⟨1⟩
    ∧ (loadModel oldState cfg0 wrapFailWorld).state.currentAgent = some ⟨0⟩
    ∧ oldState.currentModel = some ⟨0⟩
    ∧ oldState.currentAgent = some ⟨0⟩
    ∧ (generateResponse (loadModel oldState cfg0 wrapFailWorld).state.currentAgent
        { prompt := "hi", image := none } (StreamOutcome.ok [])).effects
      = [Effect.engineStream "hi"] := by
  decide

/-- C8 (amended): a successful `loadModel` installs both new handles
together; the agent handle changes only when the whole call succeeds — so a
generation session, which reads only `currentAgent`, always runs with either
the previous agent or the fully installed new one, never a torn agent
handle — but pair replacement is not atomic: a failure between the two
assignments leaves the new model paired with the previous agent. -/
theorem loadModel_agent_handle_coherent (s : WorkerState) (cfg : ModelConfig) (w : World) :
    ((loadModel s cfg w).success = true →
      ∃ m a, (loadModel s cfg w).state
        = { s with currentModel := some m, currentAgent := some a })
    ∧ ((loadModel s cfg w).state.currentAgent = s.currentAgent
        ∨ (loadModel s cfg w).success = true) := by
  simp only [loadModel]
  cases h1 : (downloadFile (cfg.base_url ++ cfg.model) "Phi model weights"
      (w.dl (cfg.base_url ++ cfg.model))).result with
  | error e1 => simp [h1]
  | ok b1 =>
    cases h2 : (downloadFile (cfg.base_url ++ cfg.tokenizer) "Phi tokenizer"
        (w.dl (cfg.base_url ++ cfg.tokenizer))).result with
    | error e2 => simp [h1, h2]
    | ok b2 =>
      cases h3 : (downloadFile (cfg.base_url ++ cfg.config) "Phi config"
          (w.dl (cfg.base_url ++ cfg.config))).result with
      | error e3 => simp [h1, h2, h3]
      | ok b3 =>
        cases hc : w.construct b1 b2 b3 (cfg.quantized.getD false) with
        | error e => simp [h1, h2, h3, hc]
        | ok m =>
          cases hw : w.wrapAgent m with
          | error e => simp [h1, h2, h3, hc, hw]
          | ok a =>
            simp only [h1, h2, h3, hc, hw]
            exact ⟨fun _ => ⟨m, a, rfl⟩, Or.inr trivial⟩

/-- C8 witness for the amended claim: a fully successful reload from a state
with pair id 0 installs model 5 and agent 7 together. -/
theorem loadModel_agent_handle_coherent_witness :
    (∃ m a, (loadModel oldState cfg0 okWorld).state
      = { oldState with currentModel := some m, currentAgent := some a })
    ∧ ((loadModel oldState cfg0 okWorld).state.currentAgent = oldState.currentAgent
        ∨ (loadModel oldState cfg0 okWorld).success = true) :=
  ⟨(loadModel_agent_handle_coherent oldState cfg0 okWorld).1 (by decide),
   (loadModel_agent_handle_coherent oldState cfg0 okWorld).2⟩

end StreamingWorker
